import Mathlib

/-!
Verification of the multibeam activity detector scan engine.

The definitions below are a shallow embedding of the two C sources
(`src/program.c`, single threaded, and `src/program2.c`, threaded).
Machine bytes (`uInt8` line readings) are modelled as `Nat`; the C `int`
fields are modelled as `Int` (no arithmetic here ever approaches the
32-bit bound, so no wrap-around modelling is needed).
-/

namespace Multibeam

/-- `NUM_TUBES` from both sources: number of monitored channels. -/
def NUM_TUBES : Nat := 16

/-- One raw bus sample: the five `uInt8` values read from lines
P0.0 to P0.4 (`inputData[0] .. inputData[4]` in the sources). -/
structure RawSample where
  d0 : Nat
  d1 : Nat
  d2 : Nat
  d3 : Nat
  d4 : Nat
deriving DecidableEq, Repr

/-- A sample is a genuine 5-bit reading when every line value is 0 or 1
(what the digital hardware delivers). -/
def RawSample.isBits (s : RawSample) : Bool :=
  s.d0 ≤ 1 && s.d1 ≤ 1 && s.d2 ≤ 1 && s.d3 ≤ 1 && s.d4 ≤ 1

/-- `TubeReading` from both sources: `value` is the C `int` position,
`isEating` the feeding latch. -/
structure TubeReading where
  value : Int
  isEating : Bool
deriving DecidableEq, Repr

/-- The startup state of every table entry: `program.c` zero-initialises the
global array, `program2.c` uses member initialisers `value = 0`,
`isEating = false`. -/
def initTubeReading : TubeReading := ⟨0, false⟩

/-- `processData`, the per-channel decoder (identical in `program.c`
lines 150-168 and `program2.c` lines 64-78), as a pure transition
function on one channel's entry:
if `data[4] == 0` the position becomes
`data[0] + (data[1] << 1) + (data[2] << 2) + (data[3] << 3)` and the
latch clears; otherwise, when `data[0..3]` are all zero and the stored
value is 1, only the latch is set; in every other case the entry is
left untouched. -/
def processData (prev : TubeReading) (data : RawSample) : TubeReading :=
  if data.d4 = 0 then
    { value := ((data.d0 + (data.d1 <<< 1) + (data.d2 <<< 2) + (data.d3 <<< 3) : Nat) : Int),
      isEating := false }
  else
    if data.d0 = 0 ∧ data.d1 = 0 ∧ data.d2 = 0 ∧ data.d3 = 0 ∧ prev.value = 1 then
      { prev with isEating := true }
    else
      prev

/-- The state of one channel after a sequence of decode steps starting
from the startup state. -/
def runDecodes (samples : List RawSample) : TubeReading :=
  samples.foldl processData initTubeReading

/-- The `data[4] == 0` branch body of `processData`, as its own function. -/
def dvLowUpdate (data : RawSample) : TubeReading :=
  { value := ((data.d0 + (data.d1 <<< 1) + (data.d2 <<< 2) + (data.d3 <<< 3) : Nat) : Int),
    isEating := false }

/-- The `else` (DV high) branch body of `processData`, as its own function. -/
def dvHighUpdate (prev : TubeReading) (data : RawSample) : TubeReading :=
  if data.d0 = 0 ∧ data.d1 = 0 ∧ data.d2 = 0 ∧ data.d3 = 0 ∧ prev.value = 1 then
    { prev with isEating := true }
  else
    prev

/-- Claim C1: for every prior channel state and every raw 5-bit sample with
`dv = raw_bits[4] = 0`, `processData` sets the position to
`b0 + 2*b1 + 4*b2 + 8*b3` and clears the feeding latch, independent of the
prior state. -/
theorem c1_dv_low_position (prev : TubeReading) (s : RawSample)
    (_hbits : s.isBits = true) (hdv : s.d4 = 0) :
    processData prev s =
      { value := ((s.d0 + 2 * s.d1 + 4 * s.d2 + 8 * s.d3 : Nat) : Int),
        isEating := false } := by
  unfold processData
  rw [if_pos hdv]
  have h : s.d0 + (s.d1 <<< 1) + (s.d2 <<< 2) + (s.d3 <<< 3)
      = s.d0 + 2 * s.d1 + 4 * s.d2 + 8 * s.d3 := by
    simp [Nat.shiftLeft_eq]
    ring
  rw [h]

/-- Witness for C1 at a concrete input: prior state (5, eating), sample
bits 1,0,1,0 with dv = 0. -/
theorem c1_dv_low_position_witness :
    processData ⟨5, true⟩ ⟨1, 0, 1, 0, 0⟩ =
      { value := ((1 + 2 * 0 + 4 * 1 + 8 * 0 : Nat) : Int), isEating := false } :=
  c1_dv_low_position ⟨5, true⟩ ⟨1, 0, 1, 0, 0⟩ (by decide) (by decide)

/-- Claim C2: for every prior channel state with position 1, decoding the
sample with dv = 1 and data bits all zero sets the feeding latch and leaves
the position unchanged. -/
theorem c2_eating_set (prev : TubeReading) (h : prev.value = 1) :
    (processData prev ⟨0, 0, 0, 0, 1⟩).isEating = true ∧
    (processData prev ⟨0, 0, 0, 0, 1⟩).value = prev.value := by
  unfold processData
  simp [h]

/-- Witness for C2 at the concrete prior state (1, not eating). -/
theorem c2_eating_set_witness :
    (processData ⟨1, false⟩ ⟨0, 0, 0, 0, 1⟩).isEating = true ∧
    (processData ⟨1, false⟩ ⟨0, 0, 0, 0, 1⟩).value = (1 : Int) :=
  c2_eating_set ⟨1, false⟩ rfl

/-- Claim C3: for every prior channel state and every sample with dv = 1
whose eating precondition fails (data bits not all zero, or the stored
position is not 1), `processData` returns the prior state unchanged. -/
theorem c3_latch_unchanged (prev : TubeReading) (s : RawSample)
    (hdv : s.d4 = 1)
    (hnot : ¬(s.d0 = 0 ∧ s.d1 = 0 ∧ s.d2 = 0 ∧ s.d3 = 0 ∧ prev.value = 1)) :
    processData prev s = prev := by
  unfold processData
  rw [if_neg (by omega), if_neg hnot]

/-- Witness for C3: prior state (3, eating), all-zero bits with dv = 1;
the position-was-1 precondition fails, the state is returned unchanged. -/
theorem c3_latch_unchanged_witness :
    processData ⟨3, true⟩ ⟨0, 0, 0, 0, 1⟩ = ⟨3, true⟩ :=
  c3_latch_unchanged ⟨3, true⟩ ⟨0, 0, 0, 0, 1⟩ rfl (by decide)

/-- One decode step preserves the invariant that a set feeding latch
implies position 1. Helper for the reachability claim. -/
theorem processData_feeding_inv (r : TubeReading) (s : RawSample)
    (h : r.isEating = true → r.value = 1) :
    (processData r s).isEating = true → (processData r s).value = 1 := by
  unfold processData
  by_cases hdv : s.d4 = 0
  · rw [if_pos hdv]
    intro hc
    simp at hc
  · rw [if_neg hdv]
    by_cases hcond : s.d0 = 0 ∧ s.d1 = 0 ∧ s.d2 = 0 ∧ s.d3 = 0 ∧ r.value = 1
    · rw [if_pos hcond]
      intro _
      exact hcond.2.2.2.2
    · rw [if_neg hcond]
      exact h

/-- Claim C4: in every channel state reachable from the startup state by
decode steps over arbitrary raw samples, a set feeding latch implies the
position is exactly 1. -/
theorem c4_feeding_implies_position_one (samples : List RawSample)
    (h : (runDecodes samples).isEating = true) :
    (runDecodes samples).value = 1 := by
  suffices H : ∀ (l : List RawSample) (r : TubeReading),
      (r.isEating = true → r.value = 1) →
      ((l.foldl processData r).isEating = true → (l.foldl processData r).value = 1) by
    exact H samples initTubeReading (by intro hc; simp [initTubeReading] at hc) h
  intro l
  induction l with
  | nil => intro r hr; exact hr
  | cons a t ih =>
      intro r hr
      exact ih (processData r a) (processData_feeding_inv r a hr)

/-- Witness for C4: after moving to position 1 and then seeing the eating
sample, the latch is set and the position is 1. -/
theorem c4_feeding_implies_position_one_witness :
    (runDecodes [⟨1, 0, 0, 0, 0⟩, ⟨0, 0, 0, 0, 1⟩]).isEating = true ∧
    (runDecodes [⟨1, 0, 0, 0, 0⟩, ⟨0, 0, 0, 0, 1⟩]).value = 1 :=
  ⟨by decide, c4_feeding_implies_position_one [⟨1, 0, 0, 0, 0⟩, ⟨0, 0, 0, 0, 1⟩] (by decide)⟩

/-- One decode step over a genuine bit sample keeps the position in 0..15.
Helper for the range claim. -/
theorem processData_position_range (r : TubeReading) (s : RawSample)
    (hs : s.isBits = true) (h : 0 ≤ r.value ∧ r.value ≤ 15) :
    0 ≤ (processData r s).value ∧ (processData r s).value ≤ 15 := by
  have hb : s.d0 ≤ 1 ∧ s.d1 ≤ 1 ∧ s.d2 ≤ 1 ∧ s.d3 ≤ 1 ∧ s.d4 ≤ 1 := by
    unfold RawSample.isBits at hs
    simp at hs
    omega
  unfold processData
  by_cases hdv : s.d4 = 0
  · rw [if_pos hdv]
    constructor
    · exact Int.natCast_nonneg _
    · have hle : s.d0 + (s.d1 <<< 1) + (s.d2 <<< 2) + (s.d3 <<< 3) ≤ 15 := by
        simp [Nat.shiftLeft_eq]
        omega
      show ((s.d0 + (s.d1 <<< 1) + (s.d2 <<< 2) + (s.d3 <<< 3) : Nat) : Int) ≤ 15
      exact_mod_cast hle
  · rw [if_neg hdv]
    by_cases hcond : s.d0 = 0 ∧ s.d1 = 0 ∧ s.d2 = 0 ∧ s.d3 = 0 ∧ r.value = 1
    · rw [if_pos hcond]
      exact h
    · rw [if_neg hcond]
      exact h

/-- Claim C7: in every channel state reachable from the startup state by
decode steps over genuine 5-bit samples, the position lies in 0..15. -/
theorem c7_position_in_range (samples : List RawSample)
    (hs : ∀ s ∈ samples, s.isBits = true) :
    0 ≤ (runDecodes samples).value ∧ (runDecodes samples).value ≤ 15 := by
  suffices H : ∀ (l : List RawSample) (r : TubeReading), (∀ s ∈ l, s.isBits = true) →
      0 ≤ r.value ∧ r.value ≤ 15 →
      0 ≤ (l.foldl processData r).value ∧ (l.foldl processData r).value ≤ 15 by
    exact H samples initTubeReading hs (by simp [initTubeReading])
  intro l
  induction l with
  | nil => intro r _ hr; exact hr
  | cons a t ih =>
      intro r hl hr
      exact ih (processData r a)
        (fun s hsmem => hl s (List.mem_cons_of_mem a hsmem))
        (processData_position_range r a (hl a (List.mem_cons_self a t)) hr)

/-- Witness for C7: the all-ones sample decodes to position 15, inside
the range. -/
theorem c7_position_in_range_witness :
    0 ≤ (runDecodes [⟨1, 1, 1, 1, 0⟩]).value ∧ (runDecodes [⟨1, 1, 1, 1, 0⟩]).value ≤ 15 :=
  c7_position_in_range [⟨1, 1, 1, 1, 0⟩] (by decide)

/-- Claim C10: `processData` branches on `data[4] == 0`, not on
`data[4] == 1`: any nonzero byte in position 4 takes the DV-high
(latch) branch, and the DV-low position-update branch is taken exactly
when byte 4 is 0. -/
theorem c10_branch_on_nonzero (prev : TubeReading) (s : RawSample) :
    (s.d4 ≠ 0 → processData prev s = dvHighUpdate prev s) ∧
    (s.d4 = 0 → processData prev s = dvLowUpdate s) := by
  constructor
  · intro h
    unfold processData dvHighUpdate
    rw [if_neg h]
  · intro h
    unfold processData dvLowUpdate
    rw [if_pos h]

/-- Witness for C10: byte 4 holding 2 (nonzero, not 1) takes the DV-high
branch; byte 4 holding 0 takes the DV-low branch. -/
theorem c10_branch_on_nonzero_witness :
    processData ⟨1, false⟩ ⟨0, 0, 0, 0, 2⟩ = dvHighUpdate ⟨1, false⟩ ⟨0, 0, 0, 0, 2⟩ ∧
    processData ⟨1, false⟩ ⟨0, 0, 0, 0, 0⟩ = dvLowUpdate ⟨0, 0, 0, 0, 0⟩ :=
  ⟨(c10_branch_on_nonzero ⟨1, false⟩ ⟨0, 0, 0, 0, 2⟩).1 (by decide),
   (c10_branch_on_nonzero ⟨1, false⟩ ⟨0, 0, 0, 0, 0⟩).2 rfl⟩

/-- The hold durations scheduled by the Generator over one full scan
cycle, in order: the duration argument of each `DAQmxWriteDigitalLines`
call. Reset high is held for `3*tb` and reset low for `tb` (`program.c`
lines 104-114, `program2.c` lines 95-101); then for each of the 16
channels clock high is held for `2.5*tb` and clock low for `2.5*tb`
(`program.c` lines 117-141, `program2.c` lines 109-131). The scheduled
multiples are modelled as exact rationals. -/
def scanCycleHoldDurations (tb : ℚ) : List ℚ :=
  [3 * tb, tb] ++ (List.range NUM_TUBES).flatMap (fun _ => [(5 / 2) * tb, (5 / 2) * tb])

/-- Claim C6: the scheduled hold durations of the Generator's bus writes
over one full scan cycle sum to exactly `84 * time_base`. -/
theorem c6_cycle_duration (tb : ℚ) : (scanCycleHoldDurations tb).sum = 84 * tb := by
  simp [scanCycleHoldDurations, NUM_TUBES, List.range_succ, List.flatMap_append,
    List.sum_append]
  ring

/-- The shared fields of `SharedState` published by the Generator thread
(`program2.c` lines 16-27): the reset flag, the clock flag and the shared
channel cursor `currentTube`. -/
structure PubState where
  resetActive : Bool
  clockHigh : Bool
  currentTube : Nat
deriving DecidableEq, Repr

/-- The sequence of `SharedState` publications made by one iteration of
`outputThreadFunc`'s loop (`program2.c` lines 84-132), each entry giving
the shared fields after one lock-protected mutation block: the reset
block sets `resetActive := true` and `currentTube := 0`; after the two
reset writes `resetActive` is cleared; then for each of the 16 loop
iterations `clockHigh` is set and then cleared. No statement of the
loop ever increments `currentTube`. The cycle starts and ends with
`clockHigh = false`, and `currentTube` is 0 from the first publication
on. -/
def genCycleTrace : List PubState :=
  [⟨true, false, 0⟩, ⟨false, false, 0⟩] ++
    (List.range NUM_TUBES).flatMap (fun _ => [⟨false, true, 0⟩, ⟨false, false, 0⟩])

/-- Counterexample to claim C9: the claim requires the i-th clock-high
publication of a cycle to carry channel index i in the shared
phase/channel cursor, but already the second clock-high publication
(index 1) still carries cursor value 0. -/
theorem c9_cursor_not_advanced :
    ¬ (∀ i, i < NUM_TUBES →
        ((genCycleTrace.filter (fun p => p.clockHigh)).getD i ⟨false, false, 0⟩).currentTube
          = i) := by
  decide

/-- Claim C9 as amended: one Generator cycle publishes, in strict order,
reset-active, then the cleared (idle) state, then clock-high followed by
clock-low once for each of the 16 channels; no publication asserts reset
and clock simultaneously; but the shared channel cursor is not advanced —
it is set to 0 at the start of the cycle and holds 0 in every
publication (the channel index lives only in the Sampler's local loop
counter). -/
theorem c9_phase_sequence :
    genCycleTrace.map (fun p => (p.resetActive, p.clockHigh)) =
      [(true, false), (false, false)] ++
        (List.range NUM_TUBES).flatMap (fun _ => [(false, true), (false, false)]) ∧
    (genCycleTrace.filter (fun p => p.clockHigh)).length = NUM_TUBES ∧
    (∀ p ∈ genCycleTrace, ¬(p.resetActive = true ∧ p.clockHigh = true)) ∧
    (∀ p ∈ genCycleTrace, p.currentTube = 0) := by
  decide

/-- Outcome of one driver call during device initialisation. -/
inductive CallOutcome where
  | ok : CallOutcome
  | fail : Int → CallOutcome
deriving DecidableEq, Repr

/-- The outcomes the DAQ driver returns for the four calls made during
device initialisation, in program order: create the input task, create
its digital-input channel, create the output task, create its
digital-output channel. -/
structure InitCalls where
  createInputTask : CallOutcome
  createDIChan : CallOutcome
  createOutputTask : CallOutcome
  createDOChan : CallOutcome
deriving DecidableEq, Repr

/-- What device initialisation left behind: the returned error code (0 on
success), which task handles were created, and which of those were
stopped and cleared again before the function's caller exits on error. -/
structure InitResult where
  error : Int
  inputAcquired : Bool
  outputAcquired : Bool
  inputReleased : Bool
  outputReleased : Bool
deriving DecidableEq, Repr

/-- Device initialisation as in `program.c` lines 78-96: the four driver
calls run in order; the `DAQmxErrChk` macro jumps to the `Error` label on
the first failure, which calls `cleanup` — stopping and clearing every
task handle that is nonzero at that point — and returns the error code.
A task handle is nonzero exactly when its `DAQmxCreateTask` call
succeeded. -/
def initDeviceC (calls : InitCalls) : InitResult :=
  match calls.createInputTask with
  | CallOutcome.fail e => ⟨e, false, false, false, false⟩
  | CallOutcome.ok =>
    match calls.createDIChan with
    | CallOutcome.fail e => ⟨e, true, false, true, false⟩
    | CallOutcome.ok =>
      match calls.createOutputTask with
      | CallOutcome.fail e => ⟨e, true, false, true, false⟩
      | CallOutcome.ok =>
        match calls.createDOChan with
        | CallOutcome.fail e => ⟨e, true, true, true, true⟩
        | CallOutcome.ok => ⟨0, true, true, false, false⟩

/-- Device initialisation as in `program2.c` lines 44-61: same four
driver calls, but the `Error` label only returns the error code — no
task handle is stopped or cleared, and `main` (lines 204-208) returns
the error immediately without releasing anything either. -/
def initDeviceCpp (calls : InitCalls) : InitResult :=
  match calls.createInputTask with
  | CallOutcome.fail e => ⟨e, false, false, false, false⟩
  | CallOutcome.ok =>
    match calls.createDIChan with
    | CallOutcome.fail e => ⟨e, true, false, false, false⟩
    | CallOutcome.ok =>
      match calls.createOutputTask with
      | CallOutcome.fail e => ⟨e, true, false, false, false⟩
      | CallOutcome.ok =>
        match calls.createDOChan with
        | CallOutcome.fail e => ⟨e, true, true, false, false⟩
        | CallOutcome.ok => ⟨0, true, true, false, false⟩

/-- The failing scenario for claim C8: both task creations and the
digital-input channel call succeed, then the digital-output channel call
fails with a driver error. -/
def c8FailingCalls : InitCalls :=
  ⟨CallOutcome.ok, CallOutcome.ok, CallOutcome.ok, CallOutcome.fail (-200220)⟩

/-- Claim C8 evaluated at the failing scenario: `program2.c` aborts with
a nonzero error while holding a created input task handle that is never
released — contradicting the claim — whereas `program.c`'s version of the
same function releases both handles there, showing the claim matches the
intended behaviour. -/
theorem c8_leaked_task_on_init_failure :
    (initDeviceCpp c8FailingCalls).error ≠ 0 ∧
    (initDeviceCpp c8FailingCalls).inputAcquired = true ∧
    (initDeviceCpp c8FailingCalls).inputReleased = false ∧
    (initDeviceC c8FailingCalls).inputReleased = true ∧
    (initDeviceC c8FailingCalls).outputReleased = true := by
  decide

/-- Outcome of one `DAQmxReadDigitalLines` call: either the five bytes
read, or the driver's nonzero error code (timeout or I/O error). -/
inductive ReadResult where
  | ok : RawSample → ReadResult
  | fail : Int → ReadResult
deriving DecidableEq, Repr

/-- The read/decode data path of the tube loop of `runAcquisition`
(`program.c` lines 117-141), over the remaining channel indices: a
successful read updates that channel's entry through `processData`; a
failed read hits the `DAQmxErrChk` macro's `goto Error` (line 145),
which returns the driver's error code at once, so no later channel is
visited. The control-line writes, whose failures claim C5 does not
concern, are taken to succeed. -/
def runAcqGo (reads : Nat → ReadResult) :
    List Nat → (Nat → TubeReading) → Int × (Nat → TubeReading)
  | [], table => (0, table)
  | i :: rest, table =>
    match reads i with
    | ReadResult.fail e => (e, table)
    | ReadResult.ok s => runAcqGo reads rest (Function.update table i (processData (table i) s))

/-- One scan cycle of `runAcquisition` over the 16 channels in ascending
order, returning the C function's error code (0 on success) and the
tube table it leaves behind. -/
def runAcquisition (reads : Nat → ReadResult) (table : Nat → TubeReading) :
    Int × (Nat → TubeReading) :=
  runAcqGo reads (List.range NUM_TUBES) table

/-- The table updates a list of successful reads performs, in order. -/
def applyReads (s : Nat → RawSample) :
    List Nat → (Nat → TubeReading) → (Nat → TubeReading)
  | [], table => table
  | i :: rest, table => applyReads s rest (Function.update table i (processData (table i) (s i)))

theorem applyReads_not_mem (s : Nat → RawSample) (l : List Nat) :
    ∀ (table : Nat → TubeReading) (j : Nat), j ∉ l → applyReads s l table j = table j := by
  induction l with
  | nil => intro table j _; rfl
  | cons i t ih =>
      intro table j hj
      have hji : j ≠ i := fun hc => hj (hc ▸ List.mem_cons_self i t)
      have hjt : j ∉ t := fun hc => hj (List.mem_cons_of_mem i hc)
      show applyReads s t (Function.update table i (processData (table i) (s i))) j = table j
      rw [ih _ j hjt]
      exact Function.update_noteq hji _ _

theorem applyReads_mem (s : Nat → RawSample) (l : List Nat) :
    ∀ (table : Nat → TubeReading) (j : Nat), l.Nodup → j ∈ l →
      applyReads s l table j = processData (table j) (s j) := by
  induction l with
  | nil => intro table j _ hj; cases hj
  | cons i t ih =>
      intro table j hnd hj
      by_cases hji : j = i
      · subst hji
        have hnt : j ∉ t := (List.nodup_cons.mp hnd).1
        show applyReads s t (Function.update table j (processData (table j) (s j))) j = _
        rw [applyReads_not_mem s t _ j hnt, Function.update_same]
      · have hjt : j ∈ t := by
          rcases List.mem_cons.mp hj with h | h
          · exact absurd h hji
          · exact h
        show applyReads s t (Function.update table i (processData (table i) (s i))) j = _
        rw [ih _ j (List.nodup_cons.mp hnd).2 hjt, Function.update_noteq hji]

theorem runAcqGo_first_fail (reads : Nat → ReadResult) (s : Nat → RawSample)
    (e : Int) (k : Nat) :
    ∀ (l₁ l₂ : List Nat) (table : Nat → TubeReading),
      (∀ i ∈ l₁, reads i = ReadResult.ok (s i)) →
      reads k = ReadResult.fail e →
      runAcqGo reads (l₁ ++ k :: l₂) table = (e, applyReads s l₁ table) := by
  intro l₁
  induction l₁ with
  | nil =>
      intro l₂ table _ hfail
      show runAcqGo reads (k :: l₂) table = _
      simp only [runAcqGo, hfail]
      rfl
  | cons i t ih =>
      intro l₂ table hok hfail
      have hi : reads i = ReadResult.ok (s i) := hok i (List.mem_cons_self i t)
      have ht : ∀ x ∈ t, reads x = ReadResult.ok (s x) :=
        fun x hx => hok x (List.mem_cons_of_mem i hx)
      show runAcqGo reads (i :: (t ++ k :: l₂)) table = _
      simp only [runAcqGo, hi]
      exact ih l₂ _ ht hfail

theorem range_split_at (n k : Nat) (h : k < n) :
    ∃ l, List.range n = List.range k ++ k :: l := by
  induction n with
  | zero => omega
  | succ m ih =>
      by_cases hk : k < m
      · obtain ⟨l, hl⟩ := ih hk
        refine ⟨l ++ [m], ?_⟩
        rw [List.range_succ, hl]
        simp
      · have hkm : k = m := by omega
        subst hkm
        exact ⟨[], by rw [List.range_succ]⟩

/-- The concrete cycle of the C5 counterexample: every channel reads the
sample 1,0,0,0,0 (position 1, DV low) except channel 7, whose read fails
with driver error -200279. -/
def c5Reads : Nat → ReadResult := fun i =>
  if i = 7 then ReadResult.fail (-200279) else ReadResult.ok ⟨1, 0, 0, 0, 0⟩

/-- The table at the start of the C5 counterexample cycle: every channel
still in its startup state. -/
def c5Table : Nat → TubeReading := fun _ => initTubeReading

/-- Counterexample to claim C5: with channel 7's read failing and every
other read returning position 1, the cycle neither returns success (the
error is fatal to the cycle: `runAcquisition` returns the nonzero code
and `main`, line 64-69 of `program.c`, then stops acquisition) nor
updates channel 8, which the claim requires to be decoded normally. -/
theorem c5_read_failure_aborts_cycle :
    ¬ ((runAcquisition c5Reads c5Table).1 = 0 ∧
       (runAcquisition c5Reads c5Table).2 8 = processData (c5Table 8) ⟨1, 0, 0, 0, 0⟩) := by
  decide

/-- Claim C5 as amended: if the read for channel k fails while all reads
before it succeed, `runAcquisition` aborts the scan cycle — it returns
the driver's error code (on which `main` stops acquisition), every
channel from k on (not just channel k) retains its prior state, and only
the channels before k are updated normally. (`program2.c` diverges the
other way: `inputThreadFunc` ignores the read's status entirely and
decodes whatever the buffer holds.) -/
theorem c5_read_failure_behaviour (reads : Nat → ReadResult)
    (table : Nat → TubeReading) (k : Nat) (e : Int) (s : Nat → RawSample)
    (hk : k < NUM_TUBES)
    (hfail : reads k = ReadResult.fail e)
    (hok : ∀ j, j < k → reads j = ReadResult.ok (s j)) :
    (runAcquisition reads table).1 = e ∧
    (∀ i, k ≤ i → (runAcquisition reads table).2 i = table i) ∧
    (∀ j, j < k → (runAcquisition reads table).2 j = processData (table j) (s j)) := by
  obtain ⟨l, hsplit⟩ := range_split_at NUM_TUBES k hk
  have hok' : ∀ i ∈ List.range k, reads i = ReadResult.ok (s i) :=
    fun i hi => hok i (List.mem_range.mp hi)
  have hrun : runAcquisition reads table = (e, applyReads s (List.range k) table) := by
    unfold runAcquisition
    rw [hsplit]
    exact runAcqGo_first_fail reads s e k (List.range k) l table hok' hfail
  refine ⟨by rw [hrun], ?_, ?_⟩
  · intro i hi
    rw [hrun]
    exact applyReads_not_mem s _ table i (by simp [List.mem_range]; omega)
  · intro j hj
    rw [hrun]
    exact applyReads_mem s _ table j (List.nodup_range k) (List.mem_range.mpr hj)

/-- Witness for the amended C5 at the concrete counterexample cycle:
the error code is returned, channel 8 keeps its startup state, channel 3
was updated to position 1. -/
theorem c5_read_failure_behaviour_witness :
    (runAcquisition c5Reads c5Table).1 = -200279 ∧
    (runAcquisition c5Reads c5Table).2 8 = c5Table 8 ∧
    (runAcquisition c5Reads c5Table).2 3 = processData (c5Table 3) ⟨1, 0, 0, 0, 0⟩ := by
  obtain ⟨h1, h2, h3⟩ :=
    c5_read_failure_behaviour c5Reads c5Table 7 (-200279) (fun _ => ⟨1, 0, 0, 0, 0⟩)
      (by decide) (by decide) (by decide)
  exact ⟨h1, h2 8 (by decide), h3 3 (by decide)⟩

end Multibeam
